import Mathlib

/-!
Verification of the grid-generation and metric-aggregation pipeline of the
`everything-is-everywhere` larval-dispersal analysis scripts.

Geometries (shapely polygons, geopandas geometry columns) are modelled as
point sets over rational coordinates (`Set Pt`): `box` is the closed
axis-aligned rectangle, `difference` is set difference, `within` is set
inclusion, `intersects` is a nonempty intersection, and `unary_union` is the
union of a list of geometries.  Numpy's `arange` is modelled with exact
rational arithmetic (real-number semantics of the documented
`ceil((stop-start)/step)` length).  Library predicates over these sets are
not decidable, so the list filters of the scripts use a propositional filter
`pfilter` with classical choice of the decision, mirroring the boolean masks
of geopandas.
-/

namespace EIE

/-!
The metric-aggregation pipeline of `create_grid_polygon_metrics_df.py`.
Numeric columns are lists of `Option ℝ` — `none` is pandas NaN ("no data").
Metric tables are association lists from the "Node" key to the metric value
(the model assumes unique keys, as the metric files carry one row per node).
Real-valued results of the scripts' exact formulas keep real-number
semantics; a pandas NaN produced by a 0/0 is modelled as `none` explicitly
(Lean's total `x / 0 = 0` is never silently used for it).
-/

/-- A point of the plane, in (lon, lat) order as shapely stores coordinates. -/
abbrev Pt := ℚ × ℚ

/-- shapely `box(minx, miny, maxx, maxy)`: the closed axis-aligned rectangle,
as the set of its points. -/
def box (minx miny maxx maxy : ℚ) : Set Pt :=
  {p : Pt | minx ≤ p.1 ∧ p.1 ≤ maxx ∧ miny ≤ p.2 ∧ p.2 ≤ maxy}

/-- geopandas `unary_union`: the union of a list of geometries. -/
def unary_union (gs : List (Set Pt)) : Set Pt := ⋃ g ∈ gs, g

open Classical in
/-- Filter of a list by a proposition on its entries, the decision taken
classically: the model of a geopandas boolean-mask selection
`df[mask]` whose mask is a geometric predicate. -/
noncomputable def pfilter {α : Type*} (p : α → Prop) : List α → List α
  | [] => []
  | x :: xs => if p x then x :: pfilter p xs else pfilter p xs

/-- `np.arange(start, stop, step)` for a positive step, in exact arithmetic:
`ceil((stop - start) / step)` equally spaced values from `start`
(numpy's documented length formula). -/
def arange (start stop step : ℚ) : List ℚ :=
  (List.range (Int.toNat ⌈(stop - start) / step⌉)).map
    (fun i : ℕ => start + (i : ℚ) * step)

/-- The rectangle lattice of `generate_grid` (lines 25–31 of
`create_grid_and_release_locs.py`): latitude rows on the outside, longitude
within a row, one closed `cell_size_deg`-sized box per lattice origin. -/
def grid_cells (min_lat max_lat min_lon max_lon cell_size_deg : ℚ) :
    List (Set Pt) :=
  (arange min_lat max_lat cell_size_deg).flatMap fun lat =>
    (arange min_lon max_lon cell_size_deg).map fun lon =>
      box lon lat (lon + cell_size_deg) (lat + cell_size_deg)

/-- `generate_grid` of `create_grid_and_release_locs.py`: build the lattice
with cell size `cell_size_km / 111` degrees, drop the cells lying within the
unioned land mask, subtract the unioned land mask from the remaining cells,
and drop the cells left empty. -/
noncomputable def generate_grid (min_lat max_lat min_lon max_lon cell_size_km : ℚ)
    (land_mask : List (Set Pt)) : List (Set Pt) :=
  let cell_size_deg := cell_size_km / 111
  let u := unary_union land_mask
  let grid := pfilter (fun g => ¬ g ⊆ u)
    (grid_cells min_lat max_lat min_lon max_lon cell_size_deg)
  let clipped := grid.map (fun g => g \ u)
  pfilter (fun g => g.Nonempty) clipped

/-- shapely `intersects`: the two geometries share at least one point
(touching counts). -/
def intersects (a b : Set Pt) : Prop := (a ∩ b).Nonempty

/-- pandas `Series.min` of a list of (present) reals: `none` on empty. -/
noncomputable def listMin (l : List ℝ) : Option ℝ := (l.minimum : WithTop ℝ)

/-- pandas `Series.max` of a list of (present) reals: `none` on empty. -/
noncomputable def listMax (l : List ℝ) : Option ℝ := (l.maximum : WithBot ℝ)

/-- Lookup of a "Node" key in a metric table: the value of the unique row
with that key (pandas left merge on the key). -/
def lookupNode (tbl : List (ℕ × ℝ)) (i : ℕ) : Option ℝ :=
  (tbl.find? (fun r => r.1 == i)).map Prod.snd

/-- Left-merge of a metric table onto cell ids `0..n-1` through the chained
"Node" key of `generate_analysis_csv` (lines 43–48): the Node column is
created by the first merge (with the in-degree table), so a cell absent from
the in-degree table has a missing Node, and a missing key matches no ℕ key
in the later merges. -/
def merged (in_degree tbl : List (ℕ × ℝ)) (n : ℕ) : List (Option ℝ) :=
  (List.range n).map fun i =>
    if (lookupNode in_degree i).isSome then lookupNode tbl i else none

open Classical in
/-- sklearn `MinMaxScaler` on one column: rescale by the min and max of the
present values (`(x - min) / (max - min)`, the zero range guarded to 1 by
`_handle_zeros_in_scale`); NaN entries pass through, an all-NaN column is
returned unchanged. -/
noncomputable def minmax_normalize (c : List (Option ℝ)) : List (Option ℝ) :=
  match listMin (c.filterMap id), listMax (c.filterMap id) with
  | some m, some M =>
    c.map (Option.map fun x => (x - m) / (if M - m = 0 then 1 else M - m))
  | _, _ => c

open Classical in
/-- scipy `zscore` with `ddof=0`, `nan_policy='omit'` on one column:
`(x - mean) / std` over the present values; NaN entries stay NaN, and a zero
standard deviation makes every entry NaN (numpy's 0/0). -/
noncomputable def zscore (c : List (Option ℝ)) : List (Option ℝ) :=
  let vals := c.filterMap id
  let μ := vals.sum / vals.length
  let σ := Real.sqrt ((vals.map fun x => (x - μ) ^ 2).sum / vals.length)
  c.map fun o => o.bind fun x => if σ = 0 then none else some ((x - μ) / σ)

/-- pandas `DataFrame.sum(axis=1)` with its default `skipna=True`,
`min_count=0`: the sum of the present entries of the row, `0` if none. -/
noncomputable def nansum (row : List (Option ℝ)) : ℝ := (row.filterMap id).sum

/-- The `z_sum` column (line 71): the NaN-skipping row sum over the four
z-score columns. -/
noncomputable def zsumCol (z1 z2 z3 z4 : List (Option ℝ)) (n : ℕ) : List ℝ :=
  (List.range n).map fun i =>
    nansum [z1.getD i none, z2.getD i none, z3.getD i none, z4.getD i none]

open Classical in
/-- The `standard_z_sum` column (line 74):
`2 * (z_sum - min) / (max - min) - 1` over the global min and max of the
`z_sum` column; when `max - min = 0` the pandas division is 0/0, i.e. NaN
in every row. -/
noncomputable def standardize_z_sum (zs : List ℝ) : List (Option ℝ) :=
  match listMin zs, listMax zs with
  | some m, some M =>
    zs.map fun z => if M - m = 0 then none else some (2 * (z - m) / (M - m) - 1)
  | _, _ => zs.map fun _ => none

/-- The columns of the analysis CSV written by `generate_analysis_csv`
(raw merged metrics, structure flag, normalized, z-scored, summed and
rescaled columns). -/
structure AnalysisOutput where
  contains_structure : List Bool
  out_col : List (Option ℝ)
  in_col : List (Option ℝ)
  node_betw : List (Option ℝ)
  food_av : List (Option ℝ)
  sr : List (Option ℝ)
  community : List (Option ℝ)
  norm_out : List (Option ℝ)
  norm_in : List (Option ℝ)
  norm_node_betw : List (Option ℝ)
  norm_food_av : List (Option ℝ)
  z_out : List (Option ℝ)
  z_in : List (Option ℝ)
  z_node_betw : List (Option ℝ)
  z_food_av : List (Option ℝ)
  z_sum : List ℝ
  standard_z_sum : List (Option ℝ)

open Classical in
/-- `generate_analysis_csv` of `create_grid_polygon_metrics_df.py`: the
structure-intersection flag per grid cell, the left-merged metric tables on
the ordinal Cell ID (the grid table's Cell ID is its row position, the scheme
of `reset_index` at lines 39–40), min-max normalization of the four metric
columns, z-scores of the normalized columns, the NaN-skipping row sum and
the rescaled `standard_z_sum`. -/
noncomputable def generate_analysis_csv
    (in_degree out_degree betweenness food_availability self_recruitment
      community : List (ℕ × ℝ))
    (structures grid : List (Set Pt)) : AnalysisOutput :=
  let n := grid.length
  let out_col := merged in_degree out_degree n
  let in_col := merged in_degree in_degree n
  let node_betw := merged in_degree betweenness n
  let food_av := merged in_degree food_availability n
  let norm_out := minmax_normalize out_col
  let norm_in := minmax_normalize in_col
  let norm_node_betw := minmax_normalize node_betw
  let norm_food_av := minmax_normalize food_av
  let z_out := zscore norm_out
  let z_in := zscore norm_in
  let z_node_betw := zscore norm_node_betw
  let z_food_av := zscore norm_food_av
  let z_sum := zsumCol z_out z_in z_node_betw z_food_av n
  { contains_structure := grid.map fun x => decide (∃ s ∈ structures, intersects s x)
    out_col := out_col
    in_col := in_col
    node_betw := node_betw
    food_av := food_av
    sr := merged in_degree self_recruitment n
    community := merged in_degree community n
    norm_out := norm_out
    norm_in := norm_in
    norm_node_betw := norm_node_betw
    norm_food_av := norm_food_av
    z_out := z_out
    z_in := z_in
    z_node_betw := z_node_betw
    z_food_av := z_food_av
    z_sum := z_sum
    standard_z_sum := standardize_z_sum z_sum }

/-- A row of the grid shapefile read by `assign_polygons`: the cell polygon
and the `Release_poly` attribute column the function copies into its
output. -/
structure GridRow where
  poly : Set Pt
  release_poly : String

/-- A row of the particle result table of `assign_polygons`. -/
structure ParticleRow where
  particleID : ℕ
  Release_poly : Option String
  Settlement_poly : ℕ ⊕ String

open Classical in
/-- geopandas `sjoin(..., how='left', predicate='within')` for one point:
the index of the first grid polygon containing the point, `none` when no
polygon does (with non-overlapping cells "first" is "unique"; overlapping
cells would duplicate rows and crash the script's final table assembly). -/
noncomputable def sjoin_within (p : Pt) (grid : List GridRow) : Option ℕ :=
  (pfilter (fun j => p ∈ (grid.getD j ⟨∅, ""⟩).poly) (List.range grid.length)).head?

/-- `assign_polygons` of `extract_release_and_settlement_polys.py`: one
output row per particle, carrying the grid's `Release_poly` attribute of the
release cell (missing when released outside every cell) and the settlement
cell index, with the sentinel `'outside grid domain'` when the final
position lies within no grid polygon (the `fillna` of line 61). -/
noncomputable def assign_polygons (particle_ids : List ℕ)
    (first_positions last_positions : List Pt) (grid : List GridRow) :
    List ParticleRow :=
  (List.range particle_ids.length).map fun i =>
    { particleID := particle_ids.getD i 0
      Release_poly := (sjoin_within (first_positions.getD i (0, 0)) grid).map
        (fun j => (grid.getD j ⟨∅, ""⟩).release_poly)
      Settlement_poly :=
        match sjoin_within (last_positions.getD i (0, 0)) grid with
        | some j => Sum.inl j
        | none => Sum.inr "outside grid domain" }

/-- numpy/pandas mean of a list of reals. -/
noncomputable def mean (l : List ℝ) : ℝ := l.sum / l.length

open Classical in
/-- `map_to_polygons` of `ersem_nc_to_polygons.py`: spatial-join each ERSEM
point (with its `Total_P` value) to the grid polygons containing it
(`how='left'`: a point in no polygon keeps one row with a missing polygon
id), group the joined rows by polygon id — pandas `groupby` drops the rows
with a missing key and sorts the group keys — and take the mean `Total_P`
per polygon. -/
noncomputable def map_to_polygons (ersem_data : List (Pt × ℝ))
    (grid : List (Set Pt)) : List (ℕ × ℝ) :=
  let joined : List (Option ℕ × ℝ) := ersem_data.flatMap fun pr =>
    match pfilter (fun j => pr.1 ∈ grid.getD j ∅) (List.range grid.length) with
    | [] => [(none, pr.2)]
    | ms => ms.map fun j => (some j, pr.2)
  let keys := pfilter (fun j => some j ∈ joined.map Prod.fst)
    (List.range grid.length)
  keys.map fun j => (j, mean ((pfilter (fun r => r.1 = some j) joined).map Prod.snd))

/-- Test fixture: metric table with value 0 on node 0 and 1 on node 1. -/
def tbl01 : List (ℕ × ℝ) := [(0, 0), (1, 1)]

/-- Test fixture: metric table with the constant value 5 on nodes 0 and 1. -/
def tbl55 : List (ℕ × ℝ) := [(0, 5), (1, 5)]

/-- Test fixture: metric table with the single node 0 carrying value 3. -/
def tbl3 : List (ℕ × ℝ) := [(0, 3)]

/-- Test fixture: a one-cell grid. -/
def grid1 : List (Set Pt) := [box 0 0 1 1]

/-- Test fixture: a two-cell grid. -/
def grid2 : List (Set Pt) := [box 0 0 1 1, box 1 0 2 1]

/-- Test fixture: a one-row grid table for `assign_polygons`. -/
def gridA : List GridRow := [⟨box 0 0 1 1, "A"⟩]

theorem pfilter_nil {α : Type*} (p : α → Prop) : pfilter p [] = [] := rfl

theorem pfilter_cons_pos {α : Type*} (p : α → Prop) (x : α) (xs : List α)
    (h : p x) : pfilter p (x :: xs) = x :: pfilter p xs := by
  simp [pfilter, h]

theorem pfilter_cons_neg {α : Type*} (p : α → Prop) (x : α) (xs : List α)
    (h : ¬ p x) : pfilter p (x :: xs) = pfilter p xs := by
  simp [pfilter, h]

theorem mem_pfilter {α : Type*} {p : α → Prop} {a : α} :
    ∀ {l : List α}, a ∈ pfilter p l ↔ a ∈ l ∧ p a
  | [] => by simp [pfilter]
  | x :: xs => by
    by_cases hx : p x
    · rw [pfilter_cons_pos p x xs hx]
      simp only [List.mem_cons, mem_pfilter (l := xs)]
      constructor
      · rintro (rfl | ⟨h1, h2⟩)
        · exact ⟨Or.inl rfl, hx⟩
        · exact ⟨Or.inr h1, h2⟩
      · rintro ⟨rfl | h1, h2⟩
        · exact Or.inl rfl
        · exact Or.inr ⟨h1, h2⟩
    · rw [pfilter_cons_neg p x xs hx]
      simp only [List.mem_cons, mem_pfilter (l := xs)]
      constructor
      · rintro ⟨h1, h2⟩; exact ⟨Or.inr h1, h2⟩
      · rintro ⟨rfl | h1, h2⟩
        · exact absurd h2 hx
        · exact ⟨h1, h2⟩

theorem unary_union_nil : unary_union [] = (∅ : Set Pt) := by
  simp [unary_union]

/-- C1: every polygon returned by `generate_grid` has empty intersection with
the unioned land mask — the output grid is ocean-only. -/
theorem C1_generate_grid_ocean_only
    (min_lat max_lat min_lon max_lon cell_size_km : ℚ)
    (land_mask : List (Set Pt)) (g : Set Pt)
    (hg : g ∈ generate_grid min_lat max_lat min_lon max_lon cell_size_km land_mask) :
    g ∩ unary_union land_mask = ∅ := by
  rcases (mem_pfilter.mp hg).1 |> List.mem_map.mp with ⟨g₀, _, rfl⟩
  ext p
  simp [Set.mem_diff]

/-- C1 witness: on the unit-degree box with an empty land mask, the single
grid cell is returned and its intersection with the mask union is empty. -/
theorem C1_generate_grid_ocean_only_witness :
    (box 0 0 1 1 \ unary_union []) ∈ generate_grid 0 1 0 1 111 [] ∧
      (box 0 0 1 1 \ unary_union []) ∩ unary_union [] = ∅ := by
  have harange : arange 0 1 (1 : ℚ) = [0] := by
    have h1 : (Int.toNat ⌈((1 : ℚ) - 0) / 1⌉) = 1 := by norm_num
    rw [arange, h1, show List.range 1 = [0] from rfl, List.map_cons, List.map_nil]
    norm_num
  have hcells : grid_cells 0 1 0 1 (1 : ℚ) = [box 0 0 1 1] := by
    rw [grid_cells, harange]
    norm_num
  have hne : ((0 : ℚ), (0 : ℚ)) ∈ box 0 0 1 1 := by
    refine ⟨by norm_num, by norm_num, by norm_num, by norm_num⟩
  have hsub : ¬ box 0 0 1 1 ⊆ (∅ : Set Pt) := fun h => Set.not_mem_empty _ (h hne)
  have hdne : (box 0 0 1 1 \ (∅ : Set Pt)).Nonempty :=
    ⟨(0, 0), hne, Set.not_mem_empty _⟩
  have hmem : (box 0 0 1 1 \ unary_union []) ∈ generate_grid 0 1 0 1 111 [] := by
    rw [generate_grid]
    norm_num only
    rw [unary_union_nil, hcells,
      pfilter_cons_pos (fun g => ¬ g ⊆ (∅ : Set Pt)) _ _ hsub, pfilter_nil,
      List.map_cons, List.map_nil,
      pfilter_cons_pos (fun g : Set Pt => g.Nonempty) _ _ hdne, pfilter_nil]
    exact List.mem_singleton.mpr rfl
  exact ⟨hmem, C1_generate_grid_ocean_only 0 1 0 1 111 [] _ hmem⟩

theorem pfilter_of_all_pos {α : Type*} {p : α → Prop} :
    ∀ {l : List α}, (∀ x ∈ l, p x) → pfilter p l = l
  | [], _ => rfl
  | x :: xs, h => by
    rw [pfilter_cons_pos _ _ _ (h x (List.mem_cons_self x xs)),
      pfilter_of_all_pos (fun y hy => h y (List.mem_cons_of_mem x hy))]

theorem box_corner_mem (minx miny maxx maxy : ℚ) (hx : minx ≤ maxx)
    (hy : miny ≤ maxy) : ((minx, miny) : Pt) ∈ box minx miny maxx maxy :=
  ⟨le_refl _, hx, le_refl _, hy⟩

/-- C6: on a bounding box whose lattice is empty (here a degenerate box with
`min_lat = max_lat`), `generate_grid` returns the empty grid and raises no
error — refuting the claim that a configuration error is surfaced. -/
theorem C6_generate_grid_degenerate_returns_empty :
    generate_grid 50 50 (-2) (-9/5) 30 [] = [] := by
  have h1 : (Int.toNat ⌈((50 : ℚ) - 50) / (30 / 111)⌉) = 0 := by norm_num
  have harange : arange 50 50 ((30 : ℚ) / 111) = [] := by
    rw [arange, h1]; rfl
  have hcells : grid_cells 50 50 (-2) (-9/5) ((30 : ℚ) / 111) = [] := by
    rw [grid_cells, harange]; rfl
  rw [generate_grid, hcells]
  rfl

/-- C6 (amended): if either `arange` of the lattice is empty (degenerate box
or oversized cell), `generate_grid` returns the empty grid, silently. -/
theorem C6_generate_grid_empty_lattice
    (min_lat max_lat min_lon max_lon cell_size_km : ℚ)
    (land_mask : List (Set Pt))
    (h : arange min_lat max_lat (cell_size_km / 111) = [] ∨
      arange min_lon max_lon (cell_size_km / 111) = []) :
    generate_grid min_lat max_lat min_lon max_lon cell_size_km land_mask = [] := by
  have hcells :
      grid_cells min_lat max_lat min_lon max_lon (cell_size_km / 111) = [] := by
    rcases h with h | h
    · rw [grid_cells, h]; rfl
    · rw [grid_cells, h]; simp
  rw [generate_grid, hcells]
  rfl

/-- C6 witness for the amended statement: a degenerate one-point box yields
the empty grid. -/
theorem C6_generate_grid_empty_lattice_witness :
    generate_grid 1 1 0 1 30 [] = [] := by
  refine C6_generate_grid_empty_lattice 1 1 0 1 30 [] (Or.inl ?_)
  have h1 : (Int.toNat ⌈((1 : ℚ) - 1) / (30 / 111)⌉) = 0 := by norm_num
  rw [arange, h1]; rfl

/-- C5: in exact (real-number) arithmetic the spec's example holds: the
bounding box `50..50.2 × -2..-1.8` at `cell_size_km = 11.1` (one tenth of a
degree) with an empty land mask yields exactly the four 0.1°×0.1° cells in
row-major order, none removed.  (The deployed code runs IEEE doubles, where
`11.1/111` rounds below `0.1` and `np.arange` produces three latitude steps,
so the script itself returns six cells — see the claim record.) -/
theorem C5_generate_grid_four_cells_exact :
    generate_grid 50 (251/5) (-2) (-9/5) (111/10) [] =
      [box (-2) 50 (-19/10) (501/10), box (-19/10) 50 (-9/5) (501/10),
        box (-2) (501/10) (-19/10) (251/5),
        box (-19/10) (501/10) (-9/5) (251/5)] := by
  have hlat : arange 50 (251/5) ((1 : ℚ)/10) = [50, 501/10] := by
    have h1 : (⌈((251 : ℚ)/5 - 50) / (1/10)⌉) = 2 := by norm_num
    rw [arange, h1, show List.range (Int.toNat 2) = [0, 1] from rfl]
    norm_num
  have hlon : arange (-2) (-9/5) ((1 : ℚ)/10) = [-2, -19/10] := by
    have h1 : (⌈((-9 : ℚ)/5 - -2) / (1/10)⌉) = 2 := by norm_num
    rw [arange, h1, show List.range (Int.toNat 2) = [0, 1] from rfl]
    norm_num
  have hcells : grid_cells 50 (251/5) (-2) (-9/5) ((1 : ℚ)/10) =
      [box (-2) 50 (-19/10) (501/10), box (-19/10) 50 (-9/5) (501/10),
        box (-2) (501/10) (-19/10) (251/5),
        box (-19/10) (501/10) (-9/5) (251/5)] := by
    rw [grid_cells, hlat, hlon]
    norm_num [List.flatMap]
  have hmem : ∀ g ∈ grid_cells 50 (251/5) (-2) (-9/5) ((1 : ℚ)/10),
      g.Nonempty := by
    rw [hcells]
    intro g hg
    fin_cases hg <;>
      exact ⟨_, box_corner_mem _ _ _ _ (by norm_num) (by norm_num)⟩
  have hq : pfilter (fun g => ¬ g ⊆ (∅ : Set Pt))
      (grid_cells 50 (251/5) (-2) (-9/5) ((1 : ℚ)/10)) =
      grid_cells 50 (251/5) (-2) (-9/5) ((1 : ℚ)/10) :=
    pfilter_of_all_pos (fun g hg hsub => by
      rcases hmem g hg with ⟨p, hp⟩
      exact Set.not_mem_empty p (hsub hp))
  have hmapid : List.map (fun g => g \ (∅ : Set Pt))
      (grid_cells 50 (251/5) (-2) (-9/5) ((1 : ℚ)/10)) =
      grid_cells 50 (251/5) (-2) (-9/5) ((1 : ℚ)/10) := by
    simp [Set.diff_empty]
  have hnon : pfilter (fun g : Set Pt => g.Nonempty)
      (grid_cells 50 (251/5) (-2) (-9/5) ((1 : ℚ)/10)) =
      grid_cells 50 (251/5) (-2) (-9/5) ((1 : ℚ)/10) :=
    pfilter_of_all_pos hmem
  have hd : (111 : ℚ)/10/111 = 1/10 := by norm_num
  rw [generate_grid, hd, unary_union_nil, hq, hmapid, hnon]
  exact hcells

theorem listMin_spec {l : List ℝ} {m : ℝ} (h : listMin l = some m) :
    m ∈ l ∧ ∀ x ∈ l, m ≤ x := by
  have h' : l.minimum = (m : WithTop ℝ) := by
    rw [← WithTop.some_eq_coe]; exact h
  exact List.minimum_eq_coe_iff.mp h'

theorem listMax_spec {l : List ℝ} {M : ℝ} (h : listMax l = some M) :
    M ∈ l ∧ ∀ x ∈ l, x ≤ M := by
  have h' : l.maximum = (M : WithBot ℝ) := by
    rw [← WithBot.some_eq_coe]; exact h
  exact List.maximum_eq_coe_iff.mp h'

theorem listMin_isSome {l : List ℝ} (h : l ≠ []) : ∃ m, listMin l = some m := by
  have h1 := List.minimum_ne_top_of_ne_nil h
  cases hm : l.minimum with
  | top => exact absurd hm h1
  | coe m => exact ⟨m, by rw [listMin, hm]; rfl⟩

theorem listMax_isSome {l : List ℝ} (h : l ≠ []) : ∃ M, listMax l = some M := by
  have h1 := List.maximum_ne_bot_of_ne_nil h
  cases hm : l.maximum with
  | bot => exact absurd hm h1
  | coe m => exact ⟨m, by rw [listMax, hm]; rfl⟩

/-- The spine of C3: on a `z_sum` column holding two distinct values the
rescaled column is everywhere `2*(z-min)/(max-min) - 1`, which lies in
`[-1, 1]` and is 0 exactly at the midpoint of the range. -/
theorem standardize_z_sum_spec (zs : List ℝ)
    (hne : ∃ a ∈ zs, ∃ b ∈ zs, a ≠ b) :
    ∃ m M, listMin zs = some m ∧ listMax zs = some M ∧ m < M ∧
      standardize_z_sum zs =
        zs.map (fun z => some (2 * (z - m) / (M - m) - 1)) ∧
      (∀ z ∈ zs, -1 ≤ 2 * (z - m) / (M - m) - 1 ∧
        2 * (z - m) / (M - m) - 1 ≤ 1) ∧
      (∀ z ∈ zs, z = (m + M) / 2 → 2 * (z - m) / (M - m) - 1 = 0) := by
  obtain ⟨a, ha, b, hb, hab⟩ := hne
  have hzs : zs ≠ [] := by rintro rfl; cases ha
  obtain ⟨m, hm⟩ := listMin_isSome hzs
  obtain ⟨M, hM⟩ := listMax_isSome hzs
  obtain ⟨hmmem, hmle⟩ := listMin_spec hm
  obtain ⟨hMmem, hMge⟩ := listMax_spec hM
  have hlt : m < M := by
    rcases lt_or_eq_of_le (hmle M hMmem) with h | h
    · exact h
    · exact absurd (le_antisymm ((h ▸ hMge) a ha) (hmle a ha) ▸
        le_antisymm ((h ▸ hMge) b hb) (hmle b hb) ▸ rfl) hab
  have hd : M - m ≠ 0 := sub_ne_zero.mpr (ne_of_gt hlt)
  have hdpos : (0 : ℝ) < M - m := sub_pos.mpr hlt
  refine ⟨m, M, hm, hM, hlt, ?_, ?_, ?_⟩
  · rw [standardize_z_sum, hm, hM]
    exact List.map_congr_left fun z _ => if_neg hd
  · intro z hz
    constructor
    · have h0 : 0 ≤ 2 * (z - m) / (M - m) :=
        div_nonneg (by linarith [hmle z hz]) (le_of_lt hdpos)
      linarith
    · have h1 : 2 * (z - m) / (M - m) ≤ 2 := by
        rw [div_le_iff₀ hdpos]
        linarith [hMge z hz]
      linarith
  · intro z hz hmid
    rw [hmid]
    field_simp
    ring

/-- C3: when the `z_sum` column of `generate_analysis_csv` holds at least
two distinct values, `standard_z_sum` is the global linear rescaling
`2*(z_sum - min)/(max - min) - 1` in every row, each value lies in
`[-1, 1]`, and a row whose `z_sum` is the midpoint `(min+max)/2` of the
range gets exactly 0. -/
theorem C3_standard_z_sum_spec
    (in_degree out_degree betweenness food_availability self_recruitment
      community : List (ℕ × ℝ)) (structures grid : List (Set Pt))
    (hne : ∃ a ∈ (generate_analysis_csv in_degree out_degree betweenness
        food_availability self_recruitment community structures grid).z_sum,
      ∃ b ∈ (generate_analysis_csv in_degree out_degree betweenness
        food_availability self_recruitment community structures grid).z_sum,
      a ≠ b) :
    ∃ m M, listMin (generate_analysis_csv in_degree out_degree betweenness
        food_availability self_recruitment community structures grid).z_sum
        = some m ∧
      listMax (generate_analysis_csv in_degree out_degree betweenness
        food_availability self_recruitment community structures grid).z_sum
        = some M ∧ m < M ∧
      (generate_analysis_csv in_degree out_degree betweenness
        food_availability self_recruitment community structures grid).standard_z_sum
        = (generate_analysis_csv in_degree out_degree betweenness
        food_availability self_recruitment community structures grid).z_sum.map
          (fun z => some (2 * (z - m) / (M - m) - 1)) ∧
      (∀ z ∈ (generate_analysis_csv in_degree out_degree betweenness
          food_availability self_recruitment community structures grid).z_sum,
        -1 ≤ 2 * (z - m) / (M - m) - 1 ∧ 2 * (z - m) / (M - m) - 1 ≤ 1) ∧
      (∀ z ∈ (generate_analysis_csv in_degree out_degree betweenness
          food_availability self_recruitment community structures grid).z_sum,
        z = (m + M) / 2 → 2 * (z - m) / (M - m) - 1 = 0) := by
  have hproj : (generate_analysis_csv in_degree out_degree betweenness
      food_availability self_recruitment community structures grid).standard_z_sum
      = standardize_z_sum (generate_analysis_csv in_degree out_degree betweenness
        food_availability self_recruitment community structures grid).z_sum := rfl
  rw [hproj]
  exact standardize_z_sum_spec _ hne

/-- The spine of the amended C7: a nonempty all-equal `z_sum` column makes
the rescaled column NaN in every row. -/
theorem standardize_z_sum_const (zs : List ℝ) (hzs : zs ≠ [])
    (heq : ∀ a ∈ zs, ∀ b ∈ zs, a = b) :
    standardize_z_sum zs = zs.map fun _ => none := by
  obtain ⟨m, hm⟩ := listMin_isSome hzs
  obtain ⟨M, hM⟩ := listMax_isSome hzs
  have hmM : M = m := heq M (listMax_spec hM).1 m (listMin_spec hm).1
  have hd : M - m = 0 := by rw [hmM, sub_self]
  rw [standardize_z_sum, hm, hM]
  exact List.map_congr_left fun z _ => if_pos hd

/-- C7 (amended): when every value of the `z_sum` column of
`generate_analysis_csv` is equal (and the grid is nonempty), the
`standard_z_sum` column is NaN in every row: the 0/0 of the rescaling
propagates, no fallback value is emitted. -/
theorem C7_standard_z_sum_all_equal_nan
    (in_degree out_degree betweenness food_availability self_recruitment
      community : List (ℕ × ℝ)) (structures grid : List (Set Pt))
    (hzs : (generate_analysis_csv in_degree out_degree betweenness
      food_availability self_recruitment community structures grid).z_sum ≠ [])
    (heq : ∀ a ∈ (generate_analysis_csv in_degree out_degree betweenness
        food_availability self_recruitment community structures grid).z_sum,
      ∀ b ∈ (generate_analysis_csv in_degree out_degree betweenness
        food_availability self_recruitment community structures grid).z_sum,
      a = b) :
    (generate_analysis_csv in_degree out_degree betweenness
      food_availability self_recruitment community structures grid).standard_z_sum
      = (generate_analysis_csv in_degree out_degree betweenness
        food_availability self_recruitment community structures grid).z_sum.map
        fun _ => none := by
  have hproj : (generate_analysis_csv in_degree out_degree betweenness
      food_availability self_recruitment community structures grid).standard_z_sum
      = standardize_z_sum (generate_analysis_csv in_degree out_degree betweenness
        food_availability self_recruitment community structures grid).z_sum := rfl
  rw [hproj]
  exact standardize_z_sum_const _ hzs heq

theorem getD_map_none {α β : Type*} (f : Option α → Option β) (hf : f none = none)
    (l : List (Option α)) (i : ℕ) (h : l.getD i none = none) :
    (l.map f).getD i none = none := by
  rw [List.getD_eq_getElem?_getD] at h ⊢
  rw [List.getElem?_map]
  rcases Option.eq_none_or_eq_some (l[i]?) with hc | ⟨v, hc⟩
  · rw [hc]; simp
  · rw [hc] at h
    simp only [Option.getD_some] at h
    subst h
    rw [hc]
    simp [hf]

theorem minmax_normalize_getD_none {c : List (Option ℝ)} {i : ℕ}
    (h : c.getD i none = none) : (minmax_normalize c).getD i none = none := by
  cases hm : listMin (c.filterMap id) with
  | none =>
    have he : minmax_normalize c = c := by
      rw [minmax_normalize, hm]
    rw [he]; exact h
  | some m =>
    cases hM : listMax (c.filterMap id) with
    | none =>
      have he : minmax_normalize c = c := by rw [minmax_normalize, hm, hM]
      rw [he]; exact h
    | some M =>
      have he : minmax_normalize c = c.map (Option.map fun x =>
          (x - m) / (if M - m = 0 then 1 else M - m)) := by
        rw [minmax_normalize, hm, hM]
      rw [he]
      exact getD_map_none _ rfl c i h

theorem zscore_getD_none {c : List (Option ℝ)} {i : ℕ}
    (h : c.getD i none = none) : (zscore c).getD i none = none := by
  rw [zscore]
  exact getD_map_none _ rfl c i h

theorem nansum_four (a b c d : Option ℝ) :
    nansum [a, b, c, d] = a.getD 0 + b.getD 0 + c.getD 0 + d.getD 0 := by
  cases a <;> cases b <;> cases c <;> cases d
  all_goals simp [nansum]
  all_goals ring

theorem zsumCol_getD (z1 z2 z3 z4 : List (Option ℝ)) (n i : ℕ) (hi : i < n) :
    (zsumCol z1 z2 z3 z4 n).getD i 0 =
      nansum [z1.getD i none, z2.getD i none, z3.getD i none, z4.getD i none] := by
  rw [zsumCol, List.getD_eq_getElem?_getD, List.getElem?_map,
    List.getElem?_range hi]
  rfl

/-- C2 (amended): missing metric values stay missing through the raw,
normalized and z-score columns, but `z_sum` uses pandas' NaN-skipping row
sum: every row's `z_sum` is the sum of its present z-components with the
missing ones contributing 0 (so an all-missing row gets 0, not NaN). -/
theorem C2_z_sum_skipna
    (in_degree out_degree betweenness food_availability self_recruitment
      community : List (ℕ × ℝ)) (structures grid : List (Set Pt))
    (o : AnalysisOutput)
    (ho : o = generate_analysis_csv in_degree out_degree betweenness
      food_availability self_recruitment community structures grid)
    (i : ℕ) (hi : i < grid.length) :
    o.z_sum.getD i 0 =
      (o.z_out.getD i none).getD 0 + (o.z_in.getD i none).getD 0 +
      (o.z_node_betw.getD i none).getD 0 + (o.z_food_av.getD i none).getD 0 ∧
    (o.out_col.getD i none = none →
      o.norm_out.getD i none = none ∧ o.z_out.getD i none = none) ∧
    (o.in_col.getD i none = none →
      o.norm_in.getD i none = none ∧ o.z_in.getD i none = none) ∧
    (o.node_betw.getD i none = none →
      o.norm_node_betw.getD i none = none ∧ o.z_node_betw.getD i none = none) ∧
    (o.food_av.getD i none = none →
      o.norm_food_av.getD i none = none ∧ o.z_food_av.getD i none = none) := by
  subst ho
  refine ⟨?_, fun h => ⟨minmax_normalize_getD_none h,
      zscore_getD_none (minmax_normalize_getD_none h)⟩,
    fun h => ⟨minmax_normalize_getD_none h,
      zscore_getD_none (minmax_normalize_getD_none h)⟩,
    fun h => ⟨minmax_normalize_getD_none h,
      zscore_getD_none (minmax_normalize_getD_none h)⟩,
    fun h => ⟨minmax_normalize_getD_none h,
      zscore_getD_none (minmax_normalize_getD_none h)⟩⟩
  rw [show (generate_analysis_csv in_degree out_degree betweenness
      food_availability self_recruitment community structures grid).z_sum =
    zsumCol (generate_analysis_csv in_degree out_degree betweenness
        food_availability self_recruitment community structures grid).z_out
      (generate_analysis_csv in_degree out_degree betweenness
        food_availability self_recruitment community structures grid).z_in
      (generate_analysis_csv in_degree out_degree betweenness
        food_availability self_recruitment community structures grid).z_node_betw
      (generate_analysis_csv in_degree out_degree betweenness
        food_availability self_recruitment community structures grid).z_food_av
      grid.length from rfl]
  rw [zsumCol_getD _ _ _ _ _ _ hi, nansum_four]

open Classical in
/-- C9: in `generate_analysis_csv` the `contains_structure` flag of cell `i`
is true iff some structure geometry intersects the cell's polygon; the
intersection predicate is shapely `intersects`, so a shared boundary point
(mere touching) counts. -/
theorem C9_contains_structure_iff
    (in_degree out_degree betweenness food_availability self_recruitment
      community : List (ℕ × ℝ)) (structures grid : List (Set Pt))
    (i : ℕ) (hi : i < grid.length) :
    (generate_analysis_csv in_degree out_degree betweenness food_availability
      self_recruitment community structures grid).contains_structure.getD i false
      = true ↔ ∃ s ∈ structures, intersects s (grid.getD i ∅) := by
  have hproj : (generate_analysis_csv in_degree out_degree betweenness
      food_availability self_recruitment community structures grid).contains_structure
      = grid.map fun x => decide (∃ s ∈ structures, intersects s x) := rfl
  rw [hproj, List.getD_eq_getElem?_getD, List.getElem?_map,
    List.getElem?_eq_getElem hi]
  simp [List.getD_eq_getElem?_getD, List.getElem?_eq_getElem hi]

theorem getD_map_some {α β : Type*} (f : Option α → Option β)
    (l : List (Option α)) (i : ℕ) (x : α) (h : l.getD i none = some x) :
    (l.map f).getD i none = f (some x) := by
  rw [List.getD_eq_getElem?_getD] at h ⊢
  rw [List.getElem?_map]
  rcases Option.eq_none_or_eq_some (l[i]?) with hc | ⟨v, hc⟩
  · rw [hc] at h; simp at h
  · rw [hc] at h
    simp only [Option.getD_some] at h
    subst h
    rw [hc]
    rfl

theorem mem_filterMap_of_getD {α : Type*} (l : List (Option α)) (i : ℕ) (x : α)
    (h : l.getD i none = some x) : x ∈ l.filterMap id := by
  rw [List.getD_eq_getElem?_getD] at h
  rcases Option.eq_none_or_eq_some (l[i]?) with hc | ⟨v, hc⟩
  · rw [hc] at h; simp at h
  · rw [hc] at h
    simp only [Option.getD_some] at h
    subst h
    exact List.mem_filterMap.mpr ⟨some x, List.getElem?_mem hc, rfl⟩

theorem filterMap_id_eraseIdx_of_none {α : Type*} :
    ∀ (l : List (Option α)) (i : ℕ), l.getD i none = none →
      (l.eraseIdx i).filterMap id = l.filterMap id
  | [], i, _ => by simp
  | x :: xs, 0, h => by
    have hx : x = none := by simpa using h
    subst hx
    simp [List.eraseIdx]
  | x :: xs, i+1, h => by
    have h' : xs.getD i none = none := by simpa using h
    have ih := filterMap_id_eraseIdx_of_none xs i h'
    cases x <;> simp [List.eraseIdx_cons_succ, List.filterMap_cons, ih]

theorem map_eraseIdx_comm {α β : Type*} (f : α → β) :
    ∀ (l : List α) (i : ℕ), (l.eraseIdx i).map f = (l.map f).eraseIdx i
  | [], _ => by simp
  | _ :: _, 0 => by simp [List.eraseIdx]
  | x :: xs, i+1 => by
    simp [List.eraseIdx_cons_succ, map_eraseIdx_comm f xs i]

/-- The spine of C4: min-max normalization of one column whose present
values are not all equal.  Every present value maps into `[0, 1]` by
`(x - min)/(max - min)`, the minimum to 0 and the maximum to 1; missing
entries stay missing, and a missing entry can be dropped from the column
without changing any other entry's result. -/
theorem minmax_normalize_spec (c : List (Option ℝ)) (m M : ℝ)
    (hm : listMin (c.filterMap id) = some m)
    (hM : listMax (c.filterMap id) = some M) (hne : m ≠ M) :
    minmax_normalize c = c.map (Option.map fun x => (x - m) / (M - m)) ∧
    (∀ i x, c.getD i none = some x →
      (minmax_normalize c).getD i none = some ((x - m) / (M - m)) ∧
      0 ≤ (x - m) / (M - m) ∧ (x - m) / (M - m) ≤ 1 ∧
      (x = m → (x - m) / (M - m) = 0) ∧ (x = M → (x - m) / (M - m) = 1)) ∧
    (∀ i, c.getD i none = none → (minmax_normalize c).getD i none = none) ∧
    (∀ i, c.getD i none = none →
      minmax_normalize (c.eraseIdx i) = (minmax_normalize c).eraseIdx i) := by
  have hmM : m < M :=
    lt_of_le_of_ne ((listMin_spec hm).2 M (listMax_spec hM).1) hne
  have hd : M - m ≠ 0 := sub_ne_zero.mpr (ne_of_gt hmM)
  have hdpos : (0 : ℝ) < M - m := sub_pos.mpr hmM
  have he : minmax_normalize c = c.map (Option.map fun x => (x - m) / (M - m)) := by
    rw [minmax_normalize, hm, hM]
    exact List.map_congr_left fun o _ => by cases o <;> simp [if_neg hd]
  refine ⟨he, ?_, fun i h => minmax_normalize_getD_none h, ?_⟩
  · intro i x hx
    have hmem := mem_filterMap_of_getD c i x hx
    have hxm : m ≤ x := (listMin_spec hm).2 x hmem
    have hxM : x ≤ M := (listMax_spec hM).2 x hmem
    refine ⟨?_, div_nonneg (by linarith) (le_of_lt hdpos), ?_, ?_, ?_⟩
    · rw [he, getD_map_some _ c i x hx]; rfl
    · rw [div_le_one hdpos]; linarith
    · rintro rfl; simp
    · rintro rfl; exact div_self hd
  · intro i hnone
    have hfm := filterMap_id_eraseIdx_of_none c i hnone
    have hm' : listMin ((c.eraseIdx i).filterMap id) = some m := by rw [hfm]; exact hm
    have hM' : listMax ((c.eraseIdx i).filterMap id) = some M := by rw [hfm]; exact hM
    have he' : minmax_normalize (c.eraseIdx i) =
        (c.eraseIdx i).map (Option.map fun x => (x - m) / (M - m)) := by
      rw [minmax_normalize, hm', hM']
      exact List.map_congr_left fun o _ => by cases o <;> simp [if_neg hd]
    rw [he, he', map_eraseIdx_comm]

/-- C4: for each of the four normalized columns of `generate_analysis_csv`,
when the column's present values are not all equal, normalization is
`(x - min)/(max - min)` over the min and max of the present rows only:
present values land in `[0, 1]` with the minimum at 0 and the maximum at 1,
missing values stay missing, and dropping a missing cell leaves every other
cell's normalized value unchanged. -/
theorem C4_minmax_normalize_columns
    (in_degree out_degree betweenness food_availability self_recruitment
      community : List (ℕ × ℝ)) (structures grid : List (Set Pt))
    (o : AnalysisOutput)
    (ho : o = generate_analysis_csv in_degree out_degree betweenness
      food_availability self_recruitment community structures grid)
    (raw norm : List (Option ℝ))
    (hpair : (raw, norm) ∈ [(o.out_col, o.norm_out), (o.in_col, o.norm_in),
      (o.node_betw, o.norm_node_betw), (o.food_av, o.norm_food_av)])
    (m M : ℝ) (hm : listMin (raw.filterMap id) = some m)
    (hM : listMax (raw.filterMap id) = some M) (hne : m ≠ M) :
    norm = raw.map (Option.map fun x => (x - m) / (M - m)) ∧
    (∀ i x, raw.getD i none = some x →
      norm.getD i none = some ((x - m) / (M - m)) ∧
      0 ≤ (x - m) / (M - m) ∧ (x - m) / (M - m) ≤ 1 ∧
      (x = m → (x - m) / (M - m) = 0) ∧ (x = M → (x - m) / (M - m) = 1)) ∧
    (∀ i, raw.getD i none = none → norm.getD i none = none) ∧
    (∀ i, raw.getD i none = none →
      minmax_normalize (raw.eraseIdx i) = norm.eraseIdx i) := by
  subst ho
  have hn : norm = minmax_normalize raw := by
    fin_cases hpair <;> rfl
  subst hn
  exact minmax_normalize_spec raw m M hm hM hne

theorem pfilter_eq_nil_of_all_neg {α : Type*} {p : α → Prop} :
    ∀ {l : List α}, (∀ x ∈ l, ¬ p x) → pfilter p l = []
  | [], _ => rfl
  | x :: xs, h => by
    rw [pfilter_cons_neg _ _ _ (h x (List.mem_cons_self x xs))]
    exact pfilter_eq_nil_of_all_neg fun y hy => h y (List.mem_cons_of_mem x hy)

theorem getD_map_range {α : Type*} (n i : ℕ) (f : ℕ → α) (d : α) (hi : i < n) :
    ((List.range n).map f).getD i d = f i := by
  rw [List.getD_eq_getElem?_getD, List.getElem?_map, List.getElem?_range hi]
  rfl

/-- C8: for well-formed particle input (one first and one last position per
particle id, cells not overlapping), `assign_polygons` returns exactly one
row per particle, and a particle whose final position lies within no grid
polygon gets the sentinel value `'outside grid domain'` in its
`Settlement_poly` field. -/
theorem C8_assign_polygons_sentinel
    (particle_ids : List ℕ) (first_positions last_positions : List Pt)
    (grid : List GridRow)
    (hlen1 : first_positions.length = particle_ids.length)
    (hlen2 : last_positions.length = particle_ids.length)
    (hdisj : ∀ p : Pt, ∀ j k : ℕ, j < grid.length → k < grid.length →
      p ∈ (grid.getD j ⟨∅, ""⟩).poly → p ∈ (grid.getD k ⟨∅, ""⟩).poly → j = k) :
    (assign_polygons particle_ids first_positions last_positions grid).length
      = particle_ids.length ∧
    (∀ i, i < particle_ids.length →
      (∀ row ∈ grid, last_positions.getD i (0, 0) ∉ row.poly) →
      ((assign_polygons particle_ids first_positions last_positions grid).getD i
        ⟨0, none, Sum.inr ""⟩).Settlement_poly = Sum.inr "outside grid domain") := by
  constructor
  · rw [assign_polygons, List.length_map, List.length_range]
  · intro i hi houtside
    rw [assign_polygons, getD_map_range _ _ _ _ hi]
    have hnone : sjoin_within (last_positions.getD i (0, 0)) grid = none := by
      rw [sjoin_within, pfilter_eq_nil_of_all_neg]
      · rfl
      · intro j hj hmem
        have hjlt : j < grid.length := List.mem_range.mp hj
        have : grid.getD j ⟨∅, ""⟩ ∈ grid := by
          rw [List.getD_eq_getElem?_getD, List.getElem?_eq_getElem hjlt]
          exact List.getElem_mem hjlt
        exact houtside _ this hmem
    show (match sjoin_within (last_positions.getD i (0, 0)) grid with
      | some j => Sum.inl j
      | none => (Sum.inr "outside grid domain" : ℕ ⊕ String)) =
      Sum.inr "outside grid domain"
    rw [hnone]

/-- C10: `map_to_polygons` outputs a row for polygon id `j` iff at least one
data point lies within polygon `j`: polygons containing no data point are
absent from the output, and a data point lying within no polygon contributes
to no output row. -/
theorem C10_map_to_polygons_ids (ersem_data : List (Pt × ℝ))
    (grid : List (Set Pt)) (j : ℕ) :
    (∃ v, (j, v) ∈ map_to_polygons ersem_data grid) ↔
      j < grid.length ∧ ∃ pr ∈ ersem_data, pr.1 ∈ grid.getD j ∅ := by
  rw [map_to_polygons]
  constructor
  · rintro ⟨v, hv⟩
    obtain ⟨k, hk, hkj⟩ := List.mem_map.mp hv
    have hk1 : k = j := congrArg Prod.fst hkj
    rw [hk1] at hk
    obtain ⟨hkrange, hkey⟩ := mem_pfilter.mp hk
    obtain ⟨row, hrow, hfst⟩ := List.mem_map.mp hkey
    obtain ⟨pr, hpr, hrow2⟩ := List.mem_flatMap.mp hrow
    refine ⟨List.mem_range.mp hkrange, pr, hpr, ?_⟩
    rcases hms : pfilter (fun j => pr.1 ∈ grid.getD j ∅)
        (List.range grid.length) with _ | ⟨a, ms⟩
    · rw [hms] at hrow2
      simp at hrow2
      rw [hrow2] at hfst
      cases hfst
    · rw [hms] at hrow2
      obtain ⟨b, hb, hbrow⟩ := List.mem_map.mp hrow2
      rw [← hbrow] at hfst
      have hbj : b = j := Option.some.inj hfst
      rw [hbj] at hb
      have hjp : j ∈ pfilter (fun j => pr.1 ∈ grid.getD j ∅)
          (List.range grid.length) := by
        rw [hms]; exact hb
      exact (mem_pfilter.mp hjp).2
  · rintro ⟨hj, pr, hpr, hin⟩
    have hjmem : j ∈ pfilter (fun j => pr.1 ∈ grid.getD j ∅)
        (List.range grid.length) :=
      mem_pfilter.mpr ⟨List.mem_range.mpr hj, hin⟩
    have hrow : ((some j : Option ℕ), pr.2) ∈ (ersem_data.flatMap fun pr =>
        match pfilter (fun j => pr.1 ∈ grid.getD j ∅) (List.range grid.length) with
        | [] => [(none, pr.2)]
        | ms => ms.map fun j => (some j, pr.2)) := by
      refine List.mem_flatMap.mpr ⟨pr, hpr, ?_⟩
      rcases hms : pfilter (fun j => pr.1 ∈ grid.getD j ∅)
          (List.range grid.length) with _ | ⟨a, ms⟩
      · rw [hms] at hjmem; cases hjmem
      · exact List.mem_map.mpr ⟨j, hms ▸ hjmem, rfl⟩
    have hkey : j ∈ pfilter (fun j => some j ∈ (ersem_data.flatMap fun pr =>
        match pfilter (fun j => pr.1 ∈ grid.getD j ∅) (List.range grid.length) with
        | [] => [(none, pr.2)]
        | ms => ms.map fun j => (some j, pr.2)).map Prod.fst)
        (List.range grid.length) :=
      mem_pfilter.mpr ⟨List.mem_range.mpr hj,
        List.mem_map.mpr ⟨_, hrow, rfl⟩⟩
    exact ⟨_, List.mem_map.mpr ⟨j, hkey, rfl⟩⟩

theorem listMin_pair (a b : ℝ) : listMin [a, b] = some (min a b) := by
  rw [listMin, List.minimum_cons, List.minimum_singleton, ← WithTop.coe_min]
  rfl

theorem listMax_pair (a b : ℝ) : listMax [a, b] = some (max a b) := by
  rw [listMax, List.maximum_cons, List.maximum_singleton, ← WithBot.coe_max]
  rfl

theorem minmax_01 : minmax_normalize [some (0:ℝ), some 1] = [some 0, some 1] := by
  have hm : listMin ([some (0:ℝ), some 1].filterMap id) = some 0 := by
    rw [show ([some (0:ℝ), some 1].filterMap id) = [0, 1] from rfl, listMin_pair,
      min_eq_left (by norm_num)]
  have hM : listMax ([some (0:ℝ), some 1].filterMap id) = some 1 := by
    rw [show ([some (0:ℝ), some 1].filterMap id) = [0, 1] from rfl, listMax_pair,
      max_eq_right (by norm_num)]
  have h := minmax_normalize_spec [some (0:ℝ), some 1] 0 1 hm hM (by norm_num)
  rw [h.1]
  norm_num

theorem minmax_55 : minmax_normalize [some (5:ℝ), some 5] = [some 0, some 0] := by
  have hm : listMin ([some (5:ℝ), some 5].filterMap id) = some 5 := by
    rw [show ([some (5:ℝ), some 5].filterMap id) = [5, 5] from rfl, listMin_pair,
      min_self]
  have hM : listMax ([some (5:ℝ), some 5].filterMap id) = some 5 := by
    rw [show ([some (5:ℝ), some 5].filterMap id) = [5, 5] from rfl, listMax_pair,
      max_self]
  rw [minmax_normalize, hm, hM]
  norm_num

theorem minmax_sing3 : minmax_normalize [some (3:ℝ)] = [some 0] := by
  have hm : listMin ([some (3:ℝ)].filterMap id) = some 3 := rfl
  have hM : listMax ([some (3:ℝ)].filterMap id) = some 3 := rfl
  rw [minmax_normalize, hm, hM]
  norm_num

theorem zscore_eq (c : List (Option ℝ)) (μ σ : ℝ)
    (hμ : (c.filterMap id).sum / ((c.filterMap id).length : ℝ) = μ)
    (hσ : Real.sqrt (((c.filterMap id).map fun x => (x - μ) ^ 2).sum /
      ((c.filterMap id).length : ℝ)) = σ) :
    zscore c = c.map fun o => o.bind fun x =>
      if σ = 0 then none else some ((x - μ) / σ) := by
  rw [zscore, hμ, hσ]

theorem zscore_01 : zscore [some (0:ℝ), some 1] = [some (-1), some 1] := by
  have hμ : ([some (0:ℝ), some 1].filterMap id).sum /
      (([some (0:ℝ), some 1].filterMap id).length : ℝ) = 1/2 := by
    rw [show ([some (0:ℝ), some 1].filterMap id) = [0, 1] from rfl]
    norm_num
  have hσ : Real.sqrt ((([some (0:ℝ), some 1].filterMap id).map
      fun x => (x - 1/2) ^ 2).sum /
      (([some (0:ℝ), some 1].filterMap id).length : ℝ)) = 1/2 := by
    rw [show ([some (0:ℝ), some 1].filterMap id) = [0, 1] from rfl]
    rw [show (([(0:ℝ), 1].map fun x => (x - 1/2) ^ 2).sum / (([(0:ℝ), 1].length : ℕ) : ℝ))
        = (1/2)^2 by norm_num]
    exact Real.sqrt_sq (by norm_num)
  rw [zscore_eq _ (1/2) (1/2) hμ hσ]
  have hcond : ¬ ((1:ℝ)/2 = 0) := by norm_num
  simp only [List.map_cons, List.map_nil, Option.some_bind, if_neg hcond]
  norm_num

theorem zscore_00 : zscore [some (0:ℝ), some 0] = [none, none] := by
  have hμ : ([some (0:ℝ), some 0].filterMap id).sum /
      (([some (0:ℝ), some 0].filterMap id).length : ℝ) = 0 := by
    rw [show ([some (0:ℝ), some 0].filterMap id) = [0, 0] from rfl]
    norm_num
  have hσ : Real.sqrt ((([some (0:ℝ), some 0].filterMap id).map
      fun x => (x - 0) ^ 2).sum /
      (([some (0:ℝ), some 0].filterMap id).length : ℝ)) = 0 := by
    rw [show ([some (0:ℝ), some 0].filterMap id) = [0, 0] from rfl]
    rw [show (([(0:ℝ), 0].map fun x => (x - 0) ^ 2).sum / (([(0:ℝ), 0].length : ℕ) : ℝ))
        = 0 by norm_num]
    exact Real.sqrt_zero
  rw [zscore_eq _ 0 0 hμ hσ]
  simp

theorem zscore_sing0 : zscore [some (0:ℝ)] = [none] := by
  have hμ : ([some (0:ℝ)].filterMap id).sum /
      (([some (0:ℝ)].filterMap id).length : ℝ) = 0 := by
    rw [show ([some (0:ℝ)].filterMap id) = [0] from rfl]
    norm_num
  have hσ : Real.sqrt ((([some (0:ℝ)].filterMap id).map
      fun x => (x - 0) ^ 2).sum /
      (([some (0:ℝ)].filterMap id).length : ℝ)) = 0 := by
    rw [show ([some (0:ℝ)].filterMap id) = [0] from rfl]
    rw [show (([(0:ℝ)].map fun x => (x - 0) ^ 2).sum / (([(0:ℝ)].length : ℕ) : ℝ))
        = 0 by norm_num]
    exact Real.sqrt_zero
  rw [zscore_eq _ 0 0 hμ hσ]
  simp

theorem zsumCol_eval_pair (a b : Option ℝ) :
    zsumCol [a, b] [a, b] [a, b] [a, b] 2 =
      [nansum [a, a, a, a], nansum [b, b, b, b]] := by
  rw [zsumCol, show List.range 2 = [0, 1] from rfl]
  rfl

theorem eval01_zcol :
    zscore (minmax_normalize (merged tbl01 tbl01 grid2.length)) =
      [some (-1), some 1] := by
  rw [show merged tbl01 tbl01 grid2.length = [some (0:ℝ), some 1] from rfl,
    minmax_01, zscore_01]

theorem eval01_z_sum :
    (generate_analysis_csv tbl01 tbl01 tbl01 tbl01 [] [] [] grid2).z_sum
      = [-4, 4] := by
  show zsumCol (zscore (minmax_normalize (merged tbl01 tbl01 grid2.length)))
    (zscore (minmax_normalize (merged tbl01 tbl01 grid2.length)))
    (zscore (minmax_normalize (merged tbl01 tbl01 grid2.length)))
    (zscore (minmax_normalize (merged tbl01 tbl01 grid2.length)))
    grid2.length = [-4, 4]
  rw [eval01_zcol, show grid2.length = 2 from rfl, zsumCol_eval_pair]
  norm_num [nansum, List.filterMap_cons, id_eq]

theorem eval55_zcol :
    zscore (minmax_normalize (merged tbl55 tbl55 grid2.length)) =
      [none, none] := by
  rw [show merged tbl55 tbl55 grid2.length = [some (5:ℝ), some 5] from rfl,
    minmax_55, zscore_00]

theorem eval55_z_sum :
    (generate_analysis_csv tbl55 tbl55 tbl55 tbl55 [] [] [] grid2).z_sum
      = [0, 0] := by
  show zsumCol (zscore (minmax_normalize (merged tbl55 tbl55 grid2.length)))
    (zscore (minmax_normalize (merged tbl55 tbl55 grid2.length)))
    (zscore (minmax_normalize (merged tbl55 tbl55 grid2.length)))
    (zscore (minmax_normalize (merged tbl55 tbl55 grid2.length)))
    grid2.length = [0, 0]
  rw [eval55_zcol, show grid2.length = 2 from rfl, zsumCol_eval_pair]
  norm_num [nansum, List.filterMap_cons, id_eq]

theorem eval3_z_sum :
    (generate_analysis_csv tbl3 tbl3 tbl3 tbl3 [] [] [] grid1).z_sum
      = [0] := by
  show zsumCol (zscore (minmax_normalize (merged tbl3 tbl3 grid1.length)))
    (zscore (minmax_normalize (merged tbl3 tbl3 grid1.length)))
    (zscore (minmax_normalize (merged tbl3 tbl3 grid1.length)))
    (zscore (minmax_normalize (merged tbl3 tbl3 grid1.length)))
    grid1.length = [0]
  rw [show merged tbl3 tbl3 grid1.length = [some (3:ℝ)] from rfl,
    minmax_sing3, zscore_sing0]
  rw [zsumCol, show List.range grid1.length = [0] from rfl]
  norm_num [nansum, List.filterMap_cons, id_eq]

/-- C2 counterexample: with every metric table empty, the single cell's four
z-components are all missing, yet its `z_sum` is the coerced value 0 — not
missing, contradicting the claim that a row with missing components gets a
missing `z_sum` and that missing values are never coerced to zero. -/
theorem C2_z_sum_zero_on_all_missing :
    (generate_analysis_csv [] [] [] [] [] [] [] grid1).food_av = [none] ∧
    (generate_analysis_csv [] [] [] [] [] [] [] grid1).z_food_av = [none] ∧
    (generate_analysis_csv [] [] [] [] [] [] [] grid1).z_sum = [0] := by
  refine ⟨rfl, rfl, rfl⟩

/-- C2 witness: the amended NaN-skipping z_sum rule instantiated on the
one-cell input whose metric tables are all empty. -/
theorem C2_z_sum_skipna_witness :
    (generate_analysis_csv [] [] [] [] [] [] [] grid1).z_sum.getD 0 0 =
      ((generate_analysis_csv [] [] [] [] [] [] [] grid1).z_out.getD 0 none).getD 0 +
      ((generate_analysis_csv [] [] [] [] [] [] [] grid1).z_in.getD 0 none).getD 0 +
      ((generate_analysis_csv [] [] [] [] [] [] [] grid1).z_node_betw.getD 0 none).getD 0 +
      ((generate_analysis_csv [] [] [] [] [] [] [] grid1).z_food_av.getD 0 none).getD 0 ∧
    ((generate_analysis_csv [] [] [] [] [] [] [] grid1).out_col.getD 0 none = none →
      (generate_analysis_csv [] [] [] [] [] [] [] grid1).norm_out.getD 0 none = none ∧
      (generate_analysis_csv [] [] [] [] [] [] [] grid1).z_out.getD 0 none = none) ∧
    ((generate_analysis_csv [] [] [] [] [] [] [] grid1).in_col.getD 0 none = none →
      (generate_analysis_csv [] [] [] [] [] [] [] grid1).norm_in.getD 0 none = none ∧
      (generate_analysis_csv [] [] [] [] [] [] [] grid1).z_in.getD 0 none = none) ∧
    ((generate_analysis_csv [] [] [] [] [] [] [] grid1).node_betw.getD 0 none = none →
      (generate_analysis_csv [] [] [] [] [] [] [] grid1).norm_node_betw.getD 0 none = none ∧
      (generate_analysis_csv [] [] [] [] [] [] [] grid1).z_node_betw.getD 0 none = none) ∧
    ((generate_analysis_csv [] [] [] [] [] [] [] grid1).food_av.getD 0 none = none →
      (generate_analysis_csv [] [] [] [] [] [] [] grid1).norm_food_av.getD 0 none = none ∧
      (generate_analysis_csv [] [] [] [] [] [] [] grid1).z_food_av.getD 0 none = none) :=
  C2_z_sum_skipna [] [] [] [] [] [] [] grid1 _ rfl 0 Nat.one_pos

/-- C3 witness: the `standard_z_sum` specification instantiated on a
two-cell input whose `z_sum` column is `[-4, 4]`. -/
theorem C3_standard_z_sum_spec_witness :
    ∃ m M, listMin (generate_analysis_csv tbl01 tbl01 tbl01 tbl01 [] [] []
        grid2).z_sum = some m ∧
      listMax (generate_analysis_csv tbl01 tbl01 tbl01 tbl01 [] [] []
        grid2).z_sum = some M ∧ m < M ∧
      (generate_analysis_csv tbl01 tbl01 tbl01 tbl01 [] [] []
        grid2).standard_z_sum
        = (generate_analysis_csv tbl01 tbl01 tbl01 tbl01 [] [] []
          grid2).z_sum.map (fun z => some (2 * (z - m) / (M - m) - 1)) ∧
      (∀ z ∈ (generate_analysis_csv tbl01 tbl01 tbl01 tbl01 [] [] []
          grid2).z_sum,
        -1 ≤ 2 * (z - m) / (M - m) - 1 ∧ 2 * (z - m) / (M - m) - 1 ≤ 1) ∧
      (∀ z ∈ (generate_analysis_csv tbl01 tbl01 tbl01 tbl01 [] [] []
          grid2).z_sum,
        z = (m + M) / 2 → 2 * (z - m) / (M - m) - 1 = 0) := by
  refine C3_standard_z_sum_spec tbl01 tbl01 tbl01 tbl01 [] [] [] grid2 ?_
  rw [eval01_z_sum]
  exact ⟨-4, by simp, 4, by simp, by norm_num⟩

/-- C4 counterexample: on a column whose present values are the constant 5,
sklearn's zero-range guard maps every value — the column maximum included —
to 0, so the claim's "the maximum maps to 1" fails. -/
theorem C4_minmax_degenerate_max_not_one :
    (generate_analysis_csv tbl55 tbl55 tbl55 tbl55 [] [] [] grid2).out_col
      = [some 5, some 5] ∧
    listMax ((generate_analysis_csv tbl55 tbl55 tbl55 tbl55 [] [] []
      grid2).out_col.filterMap id) = some 5 ∧
    (generate_analysis_csv tbl55 tbl55 tbl55 tbl55 [] [] [] grid2).norm_out
      = [some 0, some 0] ∧
    (generate_analysis_csv tbl55 tbl55 tbl55 tbl55 [] [] []
      grid2).norm_out.getD 0 none ≠ some 1 := by
  have h1 : (generate_analysis_csv tbl55 tbl55 tbl55 tbl55 [] [] []
      grid2).out_col = [some 5, some 5] := rfl
  have h3 : (generate_analysis_csv tbl55 tbl55 tbl55 tbl55 [] [] []
      grid2).norm_out = [some 0, some 0] := by
    show minmax_normalize (merged tbl55 tbl55 grid2.length) = _
    rw [show merged tbl55 tbl55 grid2.length = [some (5:ℝ), some 5] from rfl,
      minmax_55]
  refine ⟨h1, ?_, h3, ?_⟩
  · rw [h1, show ([some (5:ℝ), some 5].filterMap id) = [5, 5] from rfl,
      listMax_pair, max_self]
  · rw [h3]
    norm_num [List.getD_cons_zero]

/-- C4 witness: the amended min-max specification instantiated on the
out-degree column `[some 0, some 1]` (min 0, max 1). -/
theorem C4_minmax_normalize_columns_witness :
    (generate_analysis_csv tbl01 tbl01 tbl01 tbl01 [] [] [] grid2).norm_out =
      (generate_analysis_csv tbl01 tbl01 tbl01 tbl01 [] [] []
        grid2).out_col.map (Option.map fun x => (x - 0) / (1 - 0)) ∧
    (∀ i x, (generate_analysis_csv tbl01 tbl01 tbl01 tbl01 [] [] []
        grid2).out_col.getD i none = some x →
      (generate_analysis_csv tbl01 tbl01 tbl01 tbl01 [] [] []
        grid2).norm_out.getD i none = some ((x - 0) / (1 - 0)) ∧
      0 ≤ (x - 0) / (1 - 0) ∧ (x - 0) / (1 - 0) ≤ 1 ∧
      (x = 0 → (x - 0) / (1 - 0) = 0) ∧ (x = 1 → (x - 0) / (1 - 0) = 1)) ∧
    (∀ i, (generate_analysis_csv tbl01 tbl01 tbl01 tbl01 [] [] []
        grid2).out_col.getD i none = none →
      (generate_analysis_csv tbl01 tbl01 tbl01 tbl01 [] [] []
        grid2).norm_out.getD i none = none) ∧
    (∀ i, (generate_analysis_csv tbl01 tbl01 tbl01 tbl01 [] [] []
        grid2).out_col.getD i none = none →
      minmax_normalize ((generate_analysis_csv tbl01 tbl01 tbl01 tbl01 [] [] []
        grid2).out_col.eraseIdx i) =
      (generate_analysis_csv tbl01 tbl01 tbl01 tbl01 [] [] []
        grid2).norm_out.eraseIdx i) := by
  refine C4_minmax_normalize_columns tbl01 tbl01 tbl01 tbl01 [] [] [] grid2 _
    rfl _ _ (List.mem_cons_self _ _) 0 1 ?_ ?_ (by norm_num)
  · show listMin ([some (0:ℝ), some 1].filterMap id) = some 0
    rw [show ([some (0:ℝ), some 1].filterMap id) = [0, 1] from rfl,
      listMin_pair, min_eq_left (by norm_num)]
  · show listMax ([some (0:ℝ), some 1].filterMap id) = some 1
    rw [show ([some (0:ℝ), some 1].filterMap id) = [0, 1] from rfl,
      listMax_pair, max_eq_right (by norm_num)]

/-- C7 counterexample: a two-cell input with identical metrics makes every
`z_sum` equal (both 0), and `standard_z_sum` is then NaN in both rows: no
defined fallback value is emitted. -/
theorem C7_standard_z_sum_nan_cex :
    (generate_analysis_csv tbl55 tbl55 tbl55 tbl55 [] [] [] grid2).z_sum
      = [0, 0] ∧
    (generate_analysis_csv tbl55 tbl55 tbl55 tbl55 [] [] []
      grid2).standard_z_sum = [none, none] := by
  refine ⟨eval55_z_sum, ?_⟩
  have h : (generate_analysis_csv tbl55 tbl55 tbl55 tbl55 [] [] []
      grid2).standard_z_sum = standardize_z_sum (generate_analysis_csv tbl55
      tbl55 tbl55 tbl55 [] [] [] grid2).z_sum := rfl
  rw [h, eval55_z_sum]
  simp [standardize_z_sum, listMin_pair, listMax_pair]

/-- C7 witness for the amended statement: the one-cell input has the
all-equal `z_sum` column `[0]`, and its `standard_z_sum` is `[none]`. -/
theorem C7_standard_z_sum_all_equal_nan_witness :
    (generate_analysis_csv tbl3 tbl3 tbl3 tbl3 [] [] [] grid1).standard_z_sum
      = (generate_analysis_csv tbl3 tbl3 tbl3 tbl3 [] [] []
        grid1).z_sum.map fun _ => none := by
  refine C7_standard_z_sum_all_equal_nan tbl3 tbl3 tbl3 tbl3 [] [] [] grid1 ?_ ?_
  · rw [eval3_z_sum]; simp
  · rw [eval3_z_sum]; simp

/-- C8 witness: one particle released and settling at (5,5), outside the
single grid cell: one output row, with the settlement sentinel. -/
theorem C8_assign_polygons_sentinel_witness :
    (assign_polygons [1] [((5:ℚ), (5:ℚ))] [((5:ℚ), (5:ℚ))] gridA).length
      = [1].length ∧
    (∀ i, i < [1].length →
      (∀ row ∈ gridA, ([((5:ℚ), (5:ℚ))] : List Pt).getD i (0, 0) ∉ row.poly) →
      ((assign_polygons [1] [((5:ℚ), (5:ℚ))] [((5:ℚ), (5:ℚ))] gridA).getD i
        ⟨0, none, Sum.inr ""⟩).Settlement_poly
        = Sum.inr "outside grid domain") := by
  refine C8_assign_polygons_sentinel [1] [((5:ℚ), (5:ℚ))] [((5:ℚ), (5:ℚ))]
    gridA rfl rfl ?_
  intro p j k hj hk _ _
  have hj' : j < 1 := hj
  have hk' : k < 1 := hk
  omega

/-- C9 witness: a structure point lying on the boundary of the single cell
(touching, not contained in the interior) sets the flag. -/
theorem C9_contains_structure_iff_witness :
    (generate_analysis_csv [] [] [] [] [] []
      [{((1:ℚ), (0:ℚ))}] grid1).contains_structure.getD 0 false = true := by
  have h := C9_contains_structure_iff [] [] [] [] [] []
    [{((1:ℚ), (0:ℚ))}] grid1 0 (by decide)
  refine h.mpr ⟨{((1:ℚ), (0:ℚ))}, List.mem_singleton.mpr rfl, ?_⟩
  exact ⟨((1:ℚ), (0:ℚ)), rfl,
    ⟨by norm_num, by norm_num, by norm_num, by norm_num⟩⟩

end EIE
